import Mathlib

/-!
SimpleBlogSystem: the three article handlers of `main.go`.

A shallow embedding of `createArticle`, `getArticle`, `getArticles` and
`writeResponse`, together with the parts of the libraries they call that
decide what goes over the wire: `primitive.ObjectIDFromHex` / `ObjectID.Hex`,
the `encoding/json` rendering of the envelope, and the `articles` collection.
-/

namespace SimpleBlogSystem

/-! ## Go strings as bytes -/

/-- UTF-8 bytes of one character; a Go string is the sequence of these bytes. -/
def charBytes (c : Char) : List Nat :=
  let v := c.toNat
  if v < 0x80 then [v]
  else if v < 0x800 then [0xC0 + v / 64, 0x80 + v % 64]
  else if v < 0x10000 then [0xE0 + v / 4096, 0x80 + v / 64 % 64, 0x80 + v % 64]
  else [0xF0 + v / 262144, 0x80 + v / 4096 % 64, 0x80 + v / 64 % 64, 0x80 + v % 64]

/-- Bytes of a Go string: `[]byte(s)`. -/
def goBytes (s : String) : List Nat :=
  s.toList.flatMap charBytes

/-! ## `encoding/hex` -/

/-- The `fromHexChar` lookup of `encoding/hex` (`reverseHexTable`): the value
of an ASCII hex digit, either case. -/
def fromHexChar (b : Nat) : Option Nat :=
  if 48 ≤ b ∧ b ≤ 57 then some (b - 48)
  else if 97 ≤ b ∧ b ≤ 102 then some (b - 97 + 10)
  else if 65 ≤ b ∧ b ≤ 70 then some (b - 65 + 10)
  else none

/-- Errors of the identifier parse: `primitive.ErrInvalidHex`, and the two
errors of `encoding/hex`. -/
inductive HexError where
  | ErrInvalidHex
  | ErrLength
  | InvalidByteError (b : Nat)
deriving DecidableEq, Repr

/-- The digit `hextable[n]` of `encoding/hex`, lower case. -/
def hexDigit (n : Nat) : Char :=
  if n < 10 then Char.ofNat (48 + n) else Char.ofNat (87 + n)

/-- Upper-case hex digit, as `%X` prints it. -/
def hexDigitUpper (n : Nat) : Char :=
  if n < 10 then Char.ofNat (48 + n) else Char.ofNat (55 + n)

/-- The verb `%#U` of `fmt` on a byte converted to a rune: `U+00XX`, followed
by the quoted character when `strconv.IsPrint` holds (Latin-1 range). -/
def fmtSharpU (b : Nat) : String :=
  let code := String.mk [hexDigitUpper (b / 4096 % 16), hexDigitUpper (b / 256 % 16),
    hexDigitUpper (b / 16 % 16), hexDigitUpper (b % 16)]
  let printable := (0x20 ≤ b ∧ b < 0x7F) ∨ (0xA1 ≤ b ∧ b ≠ 0xAD)
  if printable then "U+" ++ code ++ " " ++ String.mk [Char.ofNat 39, Char.ofNat b, Char.ofNat 39] else "U+" ++ code

/-- Text of a parse error: `err.Error()`. -/
def HexError.Error : HexError → String
  | .ErrInvalidHex => "the provided hex string is not a valid ObjectID"
  | .ErrLength => "encoding/hex: odd length hex string"
  | .InvalidByteError b => "encoding/hex: invalid byte: " ++ fmtSharpU b

/-- The loop of `hex.Decode`: two source bytes give one byte; the first
invalid byte met is reported; a lone last byte is `ErrLength`. -/
def hexDecode : List Nat → Except HexError (List Nat)
  | [] => .ok []
  | [p] =>
    match fromHexChar p with
    | none => .error (.InvalidByteError p)
    | some _ => .error .ErrLength
  | p :: q :: rest =>
    match fromHexChar p with
    | none => .error (.InvalidByteError p)
    | some a =>
      match fromHexChar q with
      | none => .error (.InvalidByteError q)
      | some b =>
        match hexDecode rest with
        | .error e => .error e
        | .ok bs => .ok ((a * 16 + b) :: bs)

/-- The loop of `hex.EncodeToString`: two lower-case digits per byte. -/
def hexEncode : List Nat → List Char
  | [] => []
  | b :: bs => hexDigit (b / 16) :: hexDigit (b % 16) :: hexEncode bs

/-! ## `primitive.ObjectID` -/

/-- The type `primitive.ObjectID`, `[12]byte`. -/
structure ObjectID where
  bytes : List Nat
  size : bytes.length = 12
  isByte : ∀ b ∈ bytes, b < 256
deriving DecidableEq

/-- The zero value `primitive.NilObjectID`. -/
def NilObjectID : ObjectID :=
  ⟨List.replicate 12 0, by decide, by decide⟩

/-- The method `ObjectID.IsZero`. -/
def ObjectID.IsZero (id : ObjectID) : Bool :=
  decide (id = NilObjectID)

/-- The method `ObjectID.Hex`: 24 lower-case hex digits. -/
def ObjectID.Hex (id : ObjectID) : String :=
  String.mk (hexEncode id.bytes)

/-- The function `primitive.ObjectIDFromHex`: the length test on the bytes of
the string, then `hex.Decode` into the twelve bytes. -/
def ObjectIDFromHex (s : String) : Except HexError ObjectID :=
  if (goBytes s).length ≠ 24 then .error .ErrInvalidHex
  else
    match hexDecode (goBytes s) with
    | .error err => .error err
    | .ok bs =>
      if h : bs.length = 12 ∧ ∀ b ∈ bs, b < 256 then .ok ⟨bs, h.1, h.2⟩
      else .error .ErrInvalidHex

/-! ## Data model of `main.go` -/

/-- The struct `Article`. -/
structure Article where
  ID : ObjectID
  Title : String
  Content : String
  Author : String
deriving DecidableEq

/-- The values the handlers pass as `rData interface{}`: the untyped `nil`, a
`*Article`, a `[]Article` literal, and a `[]*Article` that is the nil slice
(`none`) until the first `append`. -/
inductive Payload where
  | nil
  | articlePtr (a : Article)
  | articles (l : List Article)
  | articlePtrs (l : Option (List Article))
deriving DecidableEq

/-- The struct `SBSResponse`. -/
structure SBSResponse where
  Status : Nat
  Message : String
  Data : Payload
deriving DecidableEq

/-- Status constants of `net/http` used by the handlers. -/
def StatusOK : Nat := 200

/-- Constant `http.StatusBadRequest`. -/
def StatusBadRequest : Nat := 400

/-- Constant `http.StatusNotFound`. -/
def StatusNotFound : Nat := 404

/-- Constant `http.StatusInternalServerError`. -/
def StatusInternalServerError : Nat := 500

/-! ## `encoding/json` rendering of the envelope -/

/-- A JSON object whose members are all strings, in member order. -/
abbrev JsonObject := List (String × String)

/-- The JSON values that occur as `data`. -/
inductive JsonValue where
  | null
  | object (o : JsonObject)
  | array (l : List JsonObject)
deriving DecidableEq

/-- The JSON document written for an `SBSResponse`. -/
structure JsonEnvelope where
  status : Nat
  message : String
  data : JsonValue
deriving DecidableEq

/-- Rendering of an `Article` under its `json` tags: `id` is a twelve-byte
array with `MarshalJSON`, so `omitempty` never drops it and it is written as
its hex string; the three strings are dropped when empty. -/
def Article.toJson (a : Article) : JsonObject :=
  [("id", a.ID.Hex)]
    ++ (if a.Title = "" then [] else [("title", a.Title)])
    ++ (if a.Content = "" then [] else [("content", a.Content)])
    ++ (if a.Author = "" then [] else [("author", a.Author)])

/-- Rendering of the `data` member: a nil interface and a nil slice are both
written `null`, a pointer as the object it points to, a non-nil slice as an
array. -/
def Payload.toJson : Payload → JsonValue
  | .nil => .null
  | .articlePtr a => .object a.toJson
  | .articles l => .array (l.map Article.toJson)
  | .articlePtrs none => .null
  | .articlePtrs (some l) => .array (l.map Article.toJson)

/-- Rendering of the whole envelope, `json.NewEncoder(w).Encode(res)`. -/
def SBSResponse.toJson (res : SBSResponse) : JsonEnvelope :=
  ⟨res.Status, res.Message, res.Data.toJson⟩

/-! ## The response writer -/

/-- What a handler has done to its `http.ResponseWriter`: the header map, the
codes passed to `WriteHeader`, and the values encoded onto the body, each in
call order. -/
structure ResponseWriter where
  header : List (String × String)
  codes : List Nat
  body : List SBSResponse
deriving DecidableEq

/-- A writer nothing has been written to. -/
def ResponseWriter.fresh : ResponseWriter := ⟨[], [], []⟩

/-- The call `Header().Set(key, value)`. -/
def headerSet (h : List (String × String)) (key value : String) : List (String × String) :=
  (h.filter (fun kv => kv.1 ≠ key)) ++ [(key, value)]

/-- The function `writeResponse`. -/
def writeResponse (w : ResponseWriter) (rStatus : Nat) (rMessage : String) (rData : Payload) :
    ResponseWriter :=
  let res : SBSResponse := ⟨rStatus, rMessage, rData⟩
  ⟨headerSet w.header "Content-Type" "application/json", w.codes ++ [rStatus], w.body ++ [res]⟩

/-! ## The `articles` collection -/

/-- One stored document: its `_id`, the three string members (an absent member
reads as the empty string), and, for a document whose members do not fit
`Article`, the error `Decode` gives for it. -/
structure Document where
  id : ObjectID
  title : String
  content : String
  author : String
  decodeErr : Option String
deriving DecidableEq

/-- The state behind `articleCollection`: the documents, in the order the
server returns them; the error the backend currently answers every command
with, if any (a handler call does not change it); the write-concern error the
server currently reports for a write it has applied, if any; the failure of a
later batch of a cursor, if any: the number of documents delivered after the
first one before the fetch fails, and the error; and the identifiers
`primitive.NewObjectID` hands out, with the number already taken. -/
structure Store where
  docs : List Document
  fault : Option String
  writeConcernErr : Option String
  getMoreErr : Option (Nat × String)
  newObjectID : Nat → ObjectID
  generated : Nat

/-- Decoding a stored document into an `Article`: `Decode(&a)`. -/
def Document.Decode (d : Document) : Except String Article :=
  match d.decodeErr with
  | some err => .error err
  | none => .ok ⟨d.id, d.title, d.content, d.author⟩

/-- Text of the duplicate-key write error on the `_id` index. -/
def duplicateKeyText (id : ObjectID) : String :=
  "write exception: write errors: [E11000 duplicate key error collection: sbs.articles index: _id_ dup key: "
    ++ id.Hex ++ "]"

/-- The call `articleCollection.InsertOne(nil, article)`. The document is
built under the `bson` tags, so a zero `ID` is left out and the driver puts a
newly generated `_id` in its place; the server then refuses an `_id` that is
already stored and otherwise appends the document. A write the server has
applied is still returned with an error when the write concern was not met:
the driver then hands back the result and the error together, and the caller
that tests `err` sees the error. -/
def InsertOne (s : Store) (article : Article) : Except String ObjectID × Store :=
  let gen : ObjectID × Store :=
    if article.ID.IsZero then
      (s.newObjectID s.generated, { s with generated := s.generated + 1 })
    else (article.ID, s)
  let id := gen.1
  let s1 := gen.2
  match s1.fault with
  | some err => (.error err, s1)
  | none =>
    if s1.docs.any (fun d => decide (d.id = id)) then (.error (duplicateKeyText id), s1)
    else
      let s2 : Store :=
        { s1 with docs := s1.docs ++ [⟨id, article.Title, article.Content, article.Author, none⟩] }
      match s1.writeConcernErr with
      | some err => (.error err, s2)
      | none => (.ok id, s2)

/-- Text of `mongo.ErrNoDocuments`. -/
def ErrNoDocuments : String := "mongo: no documents in result"

/-- The call `articleCollection.FindOne(ctx, bson.M{"_id": articleID}).Decode(&a)`. -/
def FindOne (s : Store) (articleID : ObjectID) : Except String Article :=
  match s.fault with
  | some err => .error err
  | none =>
    match s.docs.find? (fun d => decide (d.id = articleID)) with
    | none => .error ErrNoDocuments
    | some d => d.Decode

/-- The `*mongo.Cursor` of a successful `Find`: the documents for which
`Next` returns true, in order, and the error `Err()` holds once `Next` has
returned false (none when the cursor was read to its end). -/
structure Cursor where
  docs : List Document
  err : Option String

/-- The call `articleCollection.Find(ctx, bson.M{})`: a cursor over every
document. The reply carries the first batch; a later batch is fetched while
iterating, and when that fetch fails the cursor stops short with the error. -/
def Find (s : Store) : Except String Cursor :=
  match s.fault with
  | some err => .error err
  | none =>
    match s.getMoreErr with
    | none => .ok ⟨s.docs, none⟩
    | some (k, err) =>
      if k + 1 < s.docs.length then .ok ⟨s.docs.take (k + 1), some err⟩
      else .ok ⟨s.docs, none⟩

/-! ## The handlers -/

/-- What a handler reads of its `*http.Request`: the outcome of
`json.NewDecoder(r.Body).Decode(&article)` (the error text, or the decoded
`Article`), and `mux.Vars(r)["article_id"]`. -/
structure Request where
  body : Except String Article
  article_id : String

/-- Go `append` on a slice that may be nil. -/
def goAppend (l : Option (List Article)) (a : Article) : Option (List Article) :=
  match l with
  | none => some [a]
  | some xs => some (xs ++ [a])

/-- The handler `createArticle`. -/
def createArticle (w : ResponseWriter) (r : Request) (s : Store) : ResponseWriter × Store :=
  match r.body with
  | .error err => (writeResponse w StatusBadRequest err .nil, s)
  | .ok article =>
    if article.Title = "" ∨ article.Content = "" ∨ article.Author = "" then
      (writeResponse w StatusBadRequest "json request missing some required fields" .nil, s)
    else
      match InsertOne s article with
      | (.error err, s1) => (writeResponse w StatusInternalServerError err .nil, s1)
      | (.ok insertedID, s1) =>
        (writeResponse w StatusOK "Success" (.articlePtr ⟨insertedID, "", "", ""⟩), s1)

/-- The handler `getArticle`. -/
def getArticle (w : ResponseWriter) (r : Request) (s : Store) : ResponseWriter :=
  match ObjectIDFromHex r.article_id with
  | .error err => writeResponse w StatusBadRequest err.Error .nil
  | .ok articleID =>
    match FindOne s articleID with
    | .error err => writeResponse w StatusNotFound err .nil
    | .ok a => writeResponse w StatusOK "Success" (.articles [a])

/-- The `for cursor.Next` loop of `getArticles`, over the documents for which
`Next` returns true: decode each document and append it; the first decode
error ends the loop. The loop also ends when `Next` returns false, at the end
of the cursor or at a failed fetch alike: `cursor.Err()` is not read. -/
def decodeLoop : List Document → Option (List Article) → Except String (Option (List Article))
  | [], articleList => .ok articleList
  | d :: rest, articleList =>
    match d.Decode with
    | .error err => .error err
    | .ok a => decodeLoop rest (goAppend articleList a)

/-- The handler `getArticles`. -/
def getArticles (w : ResponseWriter) (_r : Request) (s : Store) : ResponseWriter :=
  match Find s with
  | .error err => writeResponse w StatusInternalServerError err .nil
  | .ok cursor =>
    match decodeLoop cursor.docs none with
    | .error err => writeResponse w StatusInternalServerError err .nil
    | .ok articleList => writeResponse w StatusOK "Success" (.articlePtrs articleList)

/-! ## Predicates used to state the properties -/

/-- A hexadecimal character: an ASCII digit or a letter `a`-`f` in either case. -/
def IsHexChar (c : Char) : Prop :=
  (48 ≤ c.toNat ∧ c.toNat ≤ 57) ∨ (97 ≤ c.toNat ∧ c.toNat ≤ 102) ∨ (65 ≤ c.toNat ∧ c.toNat ≤ 70)

/-- A string of exactly 24 hexadecimal characters: the identifier format of
the store. -/
def IsHex24 (s : String) : Prop :=
  s.toList.length = 24 ∧ ∀ c ∈ s.toList, IsHexChar c

/-- The envelope written by one handler call on a fresh writer: exactly one
`WriteHeader` and exactly one body, the body status mirroring the code, the
code among the four used, no data on a failure, the fixed message on success. -/
def EnvelopeOK (w : ResponseWriter) : Prop :=
  ∃ res : SBSResponse,
    w.codes = [res.Status] ∧ w.body = [res] ∧
    (res.Status = 200 ∨ res.Status = 400 ∨ res.Status = 404 ∨ res.Status = 500) ∧
    (res.Status ≠ 200 → res.Data = Payload.nil ∧ res.toJson.data = JsonValue.null) ∧
    (res.Status = 200 → res.Message = "Success")

/-- Serving a sequence of create requests in order, each on its own fresh
writer: the writers, in request order, and the store left at the end. -/
def serveCreates : Store → List Request → List ResponseWriter × Store
  | s, [] => ([], s)
  | s, r :: rs =>
    let out := createArticle ResponseWriter.fresh r s
    let rest := serveCreates out.2 rs
    (out.1 :: rest.1, rest.2)

/-- The identifier a create response issued: the `ID` of the article in the
data of a response written with status 200. -/
def issuedID (w : ResponseWriter) : Option ObjectID :=
  match w.body with
  | [res] =>
    if res.Status = 200 then
      match res.Data with
      | .articlePtr a => some a.ID
      | _ => none
    else none
  | _ => none

/-- The article a decodable document reads as. -/
def Document.article (d : Document) : Article :=
  ⟨d.id, d.title, d.content, d.author⟩

/-- The identifier whose first eleven bytes are zero and whose last byte is
`n`, for the worked examples. -/
def sampleID (n : Nat) : ObjectID :=
  ⟨List.replicate 11 0 ++ [n % 256], by simp, by
    intro b hb
    simp only [List.mem_append, List.mem_replicate, List.mem_singleton] at hb
    rcases hb with h | h
    · omega
    · omega⟩

/-- The store of the worked examples: no documents, no fault, and a generator
that hands out the identifiers ending in 1, 2, 3, ... -/
def sampleStore : Store :=
  ⟨[], none, none, none, fun n => sampleID (n + 1), 0⟩

/-- A store for the worked examples with no documents and a backend that
answers every command with an error. -/
def faultyStore : Store :=
  ⟨[], some "server selection error: context deadline exceeded", none, none,
    fun n => sampleID (n + 1), 0⟩

/-- A store for the worked examples with no documents and a server that
applies a write and then reports that the write concern was not met. -/
def unacknowledgedStore : Store :=
  ⟨[], none,
    some "write exception: write concern error: (WriteConcernFailed) waiting for replication timed out",
    none, fun n => sampleID (n + 1), 0⟩

/-- A create request with the given decoded article. -/
def createRequest (a : Article) : Request :=
  ⟨.ok a, ""⟩

/-- A get request for the given path identifier. -/
def getRequest (id : String) : Request :=
  ⟨.error "EOF", id⟩


/-! ## The identifier codec -/

/-- An ASCII character is one byte. -/
theorem charBytes_ascii (c : Char) (h : c.toNat < 128) : charBytes c = [c.toNat] := by
  simp [charBytes, h]

/-- Only an ASCII character has all its bytes below 128. -/
theorem charBytes_small (c : Char) (h : ∀ b ∈ charBytes c, b < 128) : c.toNat < 128 := by
  by_contra hc
  have hc' : ¬ c.toNat < 128 := hc
  unfold charBytes at h
  simp only [hc', if_false] at h
  split_ifs at h
  · have := h _ (List.mem_cons_self _ _); omega
  · have := h _ (List.mem_cons_self _ _); omega
  · have := h _ (List.mem_cons_self _ _); omega

/-- A byte that has a hex value is ASCII and its value is below 16. -/
theorem fromHexChar_some (b v : Nat) (h : fromHexChar b = some v) : b < 128 ∧ v < 16 := by
  unfold fromHexChar at h
  split_ifs at h <;> simp at h <;> omega

/-- The bytes with a hex value are the codes of the hex characters. -/
theorem fromHexChar_isSome_iff (c : Char) : (fromHexChar c.toNat).isSome = true ↔ IsHexChar c := by
  unfold fromHexChar IsHexChar
  split_ifs <;> simp <;> omega

/-- Each digit of the table is ASCII and reads back as its index. -/
theorem fromHexChar_hexDigit (n : Nat) (h : n < 16) :
    (hexDigit n).toNat < 128 ∧ fromHexChar (hexDigit n).toNat = some n := by
  interval_cases n <;> decide

/-- Bytes of an all-ASCII string are its character codes. -/
theorem flatMap_charBytes_ascii (cs : List Char) (h : ∀ c ∈ cs, c.toNat < 128) :
    cs.flatMap charBytes = cs.map Char.toNat := by
  induction cs with
  | nil => rfl
  | cons c cs ih =>
    have hc := h c (List.mem_cons_self _ _)
    have ht : ∀ x ∈ cs, x.toNat < 128 := fun x hx => h x (List.mem_cons_of_mem _ hx)
    simp [List.flatMap_cons, charBytes_ascii c hc, ih ht]

/-- A string all of whose bytes are below 128 is all ASCII. -/
theorem ascii_of_bytes_small (cs : List Char) (h : ∀ b ∈ cs.flatMap charBytes, b < 128) :
    ∀ c ∈ cs, c.toNat < 128 := by
  intro c hc
  apply charBytes_small
  intro b hb
  exact h b (List.mem_flatMap.mpr ⟨c, hc, hb⟩)

/-- A successful `hexDecode` read only hex digits, two per output byte. -/
theorem hexDecode_ok (bs : List Nat) : ∀ r, hexDecode bs = .ok r →
    (∀ b ∈ bs, (fromHexChar b).isSome = true) ∧ bs.length = 2 * r.length ∧ ∀ x ∈ r, x < 256 := by
  induction bs using hexDecode.induct with
  | case1 => intro r h; simp [hexDecode] at h; subst h; simp
  | case2 p hp => intro r h; simp [hexDecode, hp] at h
  | case3 p v hp => intro r h; simp [hexDecode, hp] at h
  | case4 p q rest hp => intro r h; simp [hexDecode, hp] at h
  | case5 p q rest a hp hq => intro r h; simp [hexDecode, hp, hq] at h
  | case6 p q rest a hp b hq e he ih => intro r h; simp [hexDecode, hp, hq, he] at h
  | case7 p q rest a hp b hq bs' hbs ih =>
    intro r h
    simp [hexDecode, hp, hq, hbs] at h
    subst h
    obtain ⟨i1, i2, i3⟩ := ih bs' hbs
    have ha := fromHexChar_some p a hp
    have hb := fromHexChar_some q b hq
    refine ⟨?_, ?_, ?_⟩
    · intro x hx
      simp only [List.mem_cons] at hx
      rcases hx with rfl | rfl | hx
      · simp [hp]
      · simp [hq]
      · exact i1 x hx
    · simp [i2]; omega
    · intro x hx
      simp only [List.mem_cons] at hx
      rcases hx with rfl | hx
      · omega
      · exact i3 x hx

/-- On an even number of hex digits `hexDecode` succeeds. -/
theorem hexDecode_valid (n : Nat) : ∀ bs : List Nat, bs.length = 2 * n →
    (∀ b ∈ bs, (fromHexChar b).isSome = true) → ∃ r, hexDecode bs = .ok r := by
  induction n with
  | zero =>
    intro bs hl _
    have : bs = [] := List.length_eq_zero.mp (by omega)
    subst this
    exact ⟨[], rfl⟩
  | succ n ih =>
    intro bs hl hv
    match bs, hl, hv with
    | p :: q :: rest, hl, hv =>
      have hp := hv p (by simp)
      have hq := hv q (by simp)
      obtain ⟨a, ha⟩ := Option.isSome_iff_exists.mp hp
      obtain ⟨b, hb⟩ := Option.isSome_iff_exists.mp hq
      obtain ⟨r, hr⟩ := ih rest (by simp at hl; omega) (fun x hx => hv x (by simp [hx]))
      exact ⟨(a * 16 + b) :: r, by simp [hexDecode, ha, hb, hr]⟩
    | [_], hl, _ => simp at hl; omega
    | [], hl, _ => simp at hl

/-- Decoding the digits written by `hexEncode` gives the bytes back. -/
theorem hexDecode_hexEncode (bs : List Nat) (h : ∀ b ∈ bs, b < 256) :
    hexDecode ((hexEncode bs).map Char.toNat) = .ok bs := by
  induction bs with
  | nil => rfl
  | cons b bs ih =>
    have hb := h b (List.mem_cons_self _ _)
    have ht : ∀ x ∈ bs, x < 256 := fun x hx => h x (List.mem_cons_of_mem _ hx)
    have h1 := (fromHexChar_hexDigit (b / 16) (by omega)).2
    have h2 := (fromHexChar_hexDigit (b % 16) (by omega)).2
    simp only [hexEncode, List.map_cons, hexDecode, h1, h2, ih ht]
    congr 2
    omega

/-- The digits written by `hexEncode` are ASCII. -/
theorem hexEncode_ascii (bs : List Nat) (h : ∀ b ∈ bs, b < 256) :
    ∀ c ∈ hexEncode bs, c.toNat < 128 := by
  induction bs with
  | nil => intro c hc; simp [hexEncode] at hc
  | cons b bs ih =>
    have hb := h b (List.mem_cons_self _ _)
    have ht : ∀ x ∈ bs, x < 256 := fun x hx => h x (List.mem_cons_of_mem _ hx)
    intro c hc
    simp only [hexEncode, List.mem_cons] at hc
    rcases hc with rfl | rfl | hc
    · exact (fromHexChar_hexDigit (b / 16) (by omega)).1
    · exact (fromHexChar_hexDigit (b % 16) (by omega)).1
    · exact ih ht c hc

/-- Two digits are written per byte. -/
theorem hexEncode_length (bs : List Nat) : (hexEncode bs).length = 2 * bs.length := by
  induction bs with
  | nil => rfl
  | cons b bs ih => simp [hexEncode, ih]; omega

/-- Round trip of the identifier codec: `ObjectIDFromHex(id.Hex()) = id`. -/
theorem ObjectIDFromHex_Hex (id : ObjectID) : ObjectIDFromHex id.Hex = .ok id := by
  have hb : goBytes id.Hex = (hexEncode id.bytes).map Char.toNat := by
    simp only [goBytes, ObjectID.Hex]
    exact flatMap_charBytes_ascii _ (hexEncode_ascii id.bytes id.isByte)
  have hl : (goBytes id.Hex).length = 24 := by
    rw [hb, List.length_map, hexEncode_length, id.size]
  have hd := hexDecode_hexEncode id.bytes id.isByte
  unfold ObjectIDFromHex
  rw [if_neg (by rw [hl]; simp), hb, hd]
  exact dif_pos ⟨id.size, id.isByte⟩

/-- The identifier parse succeeds exactly on the strings of 24 hex characters. -/
theorem ObjectIDFromHex_ok_iff (s : String) :
    (∃ id, ObjectIDFromHex s = .ok id) ↔ IsHex24 s := by
  constructor
  · rintro ⟨id, h⟩
    unfold ObjectIDFromHex at h
    split_ifs at h with hlen
    have hlen' : (goBytes s).length = 24 := by simpa using hlen
    cases hdec : hexDecode (goBytes s) with
    | error e => simp [hdec] at h
    | ok bs =>
      obtain ⟨hv, _, _⟩ := hexDecode_ok _ bs hdec
      have hsmall : ∀ b ∈ s.toList.flatMap charBytes, b < 128 := by
        intro b hb
        obtain ⟨v, hv'⟩ := Option.isSome_iff_exists.mp (hv b hb)
        exact (fromHexChar_some b v hv').1
      have hascii := ascii_of_bytes_small _ hsmall
      have heq : goBytes s = s.toList.map Char.toNat := flatMap_charBytes_ascii _ hascii
      refine ⟨?_, ?_⟩
      · rw [heq, List.length_map] at hlen'; exact hlen'
      · intro c hc
        apply (fromHexChar_isSome_iff c).mp
        apply hv
        rw [heq]
        exact List.mem_map_of_mem _ hc
  · rintro ⟨hlen, hhex⟩
    have hv : ∀ c ∈ s.toList, (fromHexChar c.toNat).isSome = true :=
      fun c hc => (fromHexChar_isSome_iff c).mpr (hhex c hc)
    have hascii : ∀ c ∈ s.toList, c.toNat < 128 := by
      intro c hc
      obtain ⟨v, hv'⟩ := Option.isSome_iff_exists.mp (hv c hc)
      exact (fromHexChar_some _ v hv').1
    have heq : goBytes s = s.toList.map Char.toNat := flatMap_charBytes_ascii _ hascii
    have hl : (goBytes s).length = 24 := by rw [heq, List.length_map, hlen]
    have hvb : ∀ b ∈ goBytes s, (fromHexChar b).isSome = true := by
      intro b hb
      rw [heq] at hb
      obtain ⟨c, hc, rfl⟩ := List.mem_map.mp hb
      exact hv c hc
    obtain ⟨r, hr⟩ := hexDecode_valid 12 (goBytes s) (by omega) hvb
    obtain ⟨_, h2, h3⟩ := hexDecode_ok _ r hr
    have hr12 : r.length = 12 := by omega
    refine ⟨⟨r, hr12, h3⟩, ?_⟩
    unfold ObjectIDFromHex
    rw [if_neg (by rw [hl]; simp), hr]
    exact dif_pos ⟨hr12, h3⟩


/-! ## The collection -/

/-- Outcome of `InsertOne`: either an error, and then the documents are the
ones before, or, when the error is the write-concern error of an applied
write, the ones before and the new document; or an identifier no stored
document had, and then exactly the document built from the article is appended
to a backend without fault. -/
theorem InsertOne_cases (s : Store) (a : Article) :
    (∃ err, (InsertOne s a).1 = .error err ∧
      ((InsertOne s a).2.docs = s.docs ∨
        (s.writeConcernErr = some err ∧ ∃ id,
          (InsertOne s a).2.docs = s.docs ++ [⟨id, a.Title, a.Content, a.Author, none⟩] ∧
          ∀ d ∈ s.docs, d.id ≠ id))) ∨
    (∃ id, (InsertOne s a).1 = .ok id ∧
      (InsertOne s a).2.docs = s.docs ++ [⟨id, a.Title, a.Content, a.Author, none⟩] ∧
      (∀ d ∈ s.docs, d.id ≠ id) ∧ (InsertOne s a).2.fault = none) := by
  have key : ∀ (id : ObjectID) (s1 : Store), s1.docs = s.docs → s1.fault = s.fault →
      s1.writeConcernErr = s.writeConcernErr →
      InsertOne s a =
        (match s1.fault with
        | some err => (.error err, s1)
        | none =>
          if s1.docs.any (fun d => decide (d.id = id)) then (.error (duplicateKeyText id), s1)
          else
            match s1.writeConcernErr with
            | some err => (.error err,
                { s1 with docs := s1.docs ++ [⟨id, a.Title, a.Content, a.Author, none⟩] })
            | none => (.ok id,
                { s1 with docs := s1.docs ++ [⟨id, a.Title, a.Content, a.Author, none⟩] })) →
      (∃ err, (InsertOne s a).1 = .error err ∧
        ((InsertOne s a).2.docs = s.docs ∨
          (s.writeConcernErr = some err ∧ ∃ id,
            (InsertOne s a).2.docs = s.docs ++ [⟨id, a.Title, a.Content, a.Author, none⟩] ∧
            ∀ d ∈ s.docs, d.id ≠ id))) ∨
      (∃ id, (InsertOne s a).1 = .ok id ∧
        (InsertOne s a).2.docs = s.docs ++ [⟨id, a.Title, a.Content, a.Author, none⟩] ∧
        (∀ d ∈ s.docs, d.id ≠ id) ∧ (InsertOne s a).2.fault = none) := by
    intro id s1 hdocs hfault hwc heq
    rw [heq]
    cases hf : s1.fault with
    | some err => left; exact ⟨err, rfl, Or.inl hdocs⟩
    | none =>
      by_cases hdup : s1.docs.any (fun d => decide (d.id = id)) = true
      · left
        refine ⟨duplicateKeyText id, by simp only [hdup, if_true], Or.inl ?_⟩
        simp only [hdup, if_true]
        exact hdocs
      · have hfresh : ∀ d ∈ s.docs, d.id ≠ id := by
          intro d hd heq'
          apply hdup
          rw [hdocs]
          exact List.any_eq_true.mpr ⟨d, hd, by simp [heq']⟩
        cases hw : s1.writeConcernErr with
        | some err =>
          left
          refine ⟨err, by simp only [hdup]; rfl, Or.inr ⟨by rw [← hwc, hw], id, ?_, hfresh⟩⟩
          simp only [hdup]
          rw [← hdocs]
          rfl
        | none =>
          right
          refine ⟨id, by simp only [hdup]; rfl, ?_, hfresh, ?_⟩
          · simp only [hdup]
            rw [← hdocs]
            rfl
          · simp only [hdup]
            rfl
  by_cases hz : a.ID.IsZero = true
  · exact key (s.newObjectID s.generated) { s with generated := s.generated + 1 } rfl rfl rfl
      (by simp only [InsertOne, hz, if_true])
  · exact key a.ID s rfl rfl rfl (by simp only [InsertOne, hz]; rfl)

/-- The four paths of `createArticle`, each with the response written and the
store left behind. -/
theorem createArticle_cases (r : Request) (s : Store) :
    (∃ err, r.body = .error err ∧
      createArticle ResponseWriter.fresh r s =
        (writeResponse ResponseWriter.fresh StatusBadRequest err Payload.nil, s)) ∨
    (∃ a, r.body = .ok a ∧ (a.Title = "" ∨ a.Content = "" ∨ a.Author = "") ∧
      createArticle ResponseWriter.fresh r s =
        (writeResponse ResponseWriter.fresh StatusBadRequest
          "json request missing some required fields" Payload.nil, s)) ∨
    (∃ a err, r.body = .ok a ∧ (a.Title ≠ "" ∧ a.Content ≠ "" ∧ a.Author ≠ "") ∧
      (InsertOne s a).1 = .error err ∧
      createArticle ResponseWriter.fresh r s =
        (writeResponse ResponseWriter.fresh StatusInternalServerError err Payload.nil,
          (InsertOne s a).2)) ∨
    (∃ a id, r.body = .ok a ∧ (a.Title ≠ "" ∧ a.Content ≠ "" ∧ a.Author ≠ "") ∧
      (InsertOne s a).1 = .ok id ∧
      createArticle ResponseWriter.fresh r s =
        (writeResponse ResponseWriter.fresh StatusOK "Success"
          (Payload.articlePtr ⟨id, "", "", ""⟩), (InsertOne s a).2)) := by
  cases hb : r.body with
  | error err => left; exact ⟨err, rfl, by simp [createArticle, hb]⟩
  | ok a =>
    right
    by_cases hm : a.Title = "" ∨ a.Content = "" ∨ a.Author = ""
    · left; exact ⟨a, rfl, hm, by simp only [createArticle, hb, hm, if_true]⟩
    · right
      have hv : a.Title ≠ "" ∧ a.Content ≠ "" ∧ a.Author ≠ "" := by
        refine ⟨fun h => hm (Or.inl h), fun h => hm (Or.inr (Or.inl h)),
          fun h => hm (Or.inr (Or.inr h))⟩
      cases hi : InsertOne s a with
      | mk res s1 =>
        cases res with
        | error err =>
          left
          exact ⟨a, err, rfl, hv, by rw [hi], by simp only [createArticle, hb, hm, if_false, hi]⟩
        | ok id =>
          right
          exact ⟨a, id, rfl, hv, by rw [hi], by simp only [createArticle, hb, hm, if_false, hi]⟩

/-- The paths of `getArticle`: a parse error, a lookup error or the article. -/
theorem getArticle_cases (r : Request) (s : Store) :
    (∃ e, ObjectIDFromHex r.article_id = .error e ∧
      getArticle ResponseWriter.fresh r s =
        writeResponse ResponseWriter.fresh StatusBadRequest e.Error Payload.nil) ∨
    (∃ id err, ObjectIDFromHex r.article_id = .ok id ∧ FindOne s id = .error err ∧
      getArticle ResponseWriter.fresh r s =
        writeResponse ResponseWriter.fresh StatusNotFound err Payload.nil) ∨
    (∃ id a, ObjectIDFromHex r.article_id = .ok id ∧ FindOne s id = .ok a ∧
      getArticle ResponseWriter.fresh r s =
        writeResponse ResponseWriter.fresh StatusOK "Success" (Payload.articles [a])) := by
  cases hp : ObjectIDFromHex r.article_id with
  | error e => left; exact ⟨e, rfl, by simp only [getArticle, hp]⟩
  | ok id =>
    right
    cases hf : FindOne s id with
    | error err => left; exact ⟨id, err, rfl, hf, by simp only [getArticle, hp, hf]⟩
    | ok a => right; exact ⟨id, a, rfl, hf, by simp only [getArticle, hp, hf]⟩

/-- The paths of `getArticles`: a query error, a decode error or the list. -/
theorem getArticles_cases (r : Request) (s : Store) :
    (∃ err, Find s = .error err ∧
      getArticles ResponseWriter.fresh r s =
        writeResponse ResponseWriter.fresh StatusInternalServerError err Payload.nil) ∨
    (∃ cursor err, Find s = .ok cursor ∧ decodeLoop cursor.docs none = .error err ∧
      getArticles ResponseWriter.fresh r s =
        writeResponse ResponseWriter.fresh StatusInternalServerError err Payload.nil) ∨
    (∃ cursor l, Find s = .ok cursor ∧ decodeLoop cursor.docs none = .ok l ∧
      getArticles ResponseWriter.fresh r s =
        writeResponse ResponseWriter.fresh StatusOK "Success" (Payload.articlePtrs l)) := by
  cases hF : Find s with
  | error err => left; exact ⟨err, rfl, by simp only [getArticles, hF]⟩
  | ok cursor =>
    right
    cases hD : decodeLoop cursor.docs none with
    | error err => left; exact ⟨cursor, err, rfl, hD, by simp only [getArticles, hF, hD]⟩
    | ok l => right; exact ⟨cursor, l, rfl, hD, by simp only [getArticles, hF, hD]⟩

/-- The loop over documents that all decode appends every one of them, so
after at least one document the slice is not nil. -/
theorem decodeLoop_decodable (ds : List Document) :
    ∀ (d : Document) (acc : Option (List Article)),
    (∀ x ∈ d :: ds, x.decodeErr = none) →
    decodeLoop (d :: ds) acc = .ok (some (acc.getD [] ++ (d :: ds).map Document.article)) := by
  induction ds with
  | nil =>
    intro d acc h
    have hd := h d (List.mem_cons_self _ _)
    cases acc <;> simp [decodeLoop, Document.Decode, hd, goAppend, Document.article]
  | cons e es ih =>
    intro d acc h
    have hd := h d (List.mem_cons_self _ _)
    have ht : ∀ x ∈ e :: es, x.decodeErr = none := fun x hx => h x (List.mem_cons_of_mem _ hx)
    have key : decodeLoop (d :: e :: es) acc =
        decodeLoop (e :: es) (goAppend acc ⟨d.id, d.title, d.content, d.author⟩) := by
      simp only [decodeLoop, Document.Decode, hd]
    rw [key, ih e _ ht]
    cases acc <;> simp [goAppend, Document.article]

/-- A cursor that stops short is not noticed: when the fetch of a later batch
fails after the first `k + 1` documents, `getArticles` still writes 200
"Success", with those documents only. -/
theorem getArticles_cursor_stops_short (r : Request) (s : Store) (k : Nat) (err : String)
    (hfault : s.fault = none) (hstop : s.getMoreErr = some (k, err))
    (hmore : k + 1 < s.docs.length) (hdec : ∀ d ∈ s.docs, d.decodeErr = none) :
    (getArticles ResponseWriter.fresh r s).codes = [200] ∧
    (getArticles ResponseWriter.fresh r s).body =
      [⟨200, "Success",
        Payload.articlePtrs (some ((s.docs.take (k + 1)).map Document.article))⟩] := by
  have hF : Find s = .ok ⟨s.docs.take (k + 1), some err⟩ := by
    simp only [Find, hfault, hstop, hmore, if_true]
  match hs : s.docs with
  | [] => rw [hs] at hmore; simp at hmore
  | d :: ds =>
    have hdec' : ∀ x ∈ d :: ds.take k, x.decodeErr = none := by
      intro x hx
      apply hdec
      rw [hs]
      simp only [List.mem_cons] at hx ⊢
      rcases hx with hx | hx
      · exact Or.inl hx
      · exact Or.inr (List.mem_of_mem_take hx)
    have hL := decodeLoop_decodable (ds.take k) d none hdec'
    simp only [Option.getD_none, List.nil_append] at hL
    rw [hs] at hF
    simp only [List.take_succ_cons] at hF ⊢
    simp only [getArticles, hF, hL]
    exact ⟨rfl, rfl⟩

/-! ## The properties -/

/-- C1: a create request whose decoded article has an empty title, content or
author is answered 400 with the fixed message and no data, and the store is
left exactly as it was (the insert is not reached), so its document count is
unchanged. -/
theorem createArticle_missing_field (r : Request) (s : Store) (article : Article)
    (hbody : r.body = .ok article)
    (hmiss : article.Title = "" ∨ article.Content = "" ∨ article.Author = "") :
    (createArticle ResponseWriter.fresh r s).1.codes = [400] ∧
    (createArticle ResponseWriter.fresh r s).1.body =
      [⟨400, "json request missing some required fields", Payload.nil⟩] ∧
    (createArticle ResponseWriter.fresh r s).1.body.map SBSResponse.toJson =
      [⟨400, "json request missing some required fields", JsonValue.null⟩] ∧
    (createArticle ResponseWriter.fresh r s).2 = s ∧
    (createArticle ResponseWriter.fresh r s).2.docs.length = s.docs.length := by
  simp only [createArticle, hbody, hmiss, if_true]
  simp [writeResponse, ResponseWriter.fresh, StatusBadRequest, SBSResponse.toJson, Payload.toJson]

/-- Witness of C1: a create request with an empty content on the sample store. -/
theorem createArticle_missing_field_witness :
    (createArticle ResponseWriter.fresh (createRequest ⟨NilObjectID, "t", "", "a"⟩)
      sampleStore).1.codes = [400] ∧
    (createArticle ResponseWriter.fresh (createRequest ⟨NilObjectID, "t", "", "a"⟩)
      sampleStore).2.docs.length = sampleStore.docs.length :=
  have h := createArticle_missing_field (createRequest ⟨NilObjectID, "t", "", "a"⟩) sampleStore
    ⟨NilObjectID, "t", "", "a"⟩ rfl (by decide)
  ⟨h.1, h.2.2.2.2⟩

/-- C4: when the decoded article has its three fields and the insert reports
an identifier, the response is 200 "Success" with a pointer to an `Article`
holding that identifier and three empty strings, rendered as an object with
the single member `id`. -/
theorem createArticle_success_data (r : Request) (s s1 : Store) (article : Article)
    (id : ObjectID) (hbody : r.body = .ok article)
    (hvalid : article.Title ≠ "" ∧ article.Content ≠ "" ∧ article.Author ≠ "")
    (hins : InsertOne s article = (.ok id, s1)) :
    (createArticle ResponseWriter.fresh r s).1.codes = [200] ∧
    (createArticle ResponseWriter.fresh r s).1.body =
      [⟨200, "Success", Payload.articlePtr ⟨id, "", "", ""⟩⟩] ∧
    (createArticle ResponseWriter.fresh r s).1.body.map SBSResponse.toJson =
      [⟨200, "Success", JsonValue.object [("id", id.Hex)]⟩] := by
  obtain ⟨h1, h2, h3⟩ := hvalid
  simp only [createArticle, hbody, h1, h2, h3, or_self, if_false, hins]
  simp [writeResponse, ResponseWriter.fresh, StatusOK, SBSResponse.toJson, Payload.toJson,
    Article.toJson]

/-- Witness of C4: a complete article created on the sample store. -/
theorem createArticle_success_data_witness :
    (createArticle ResponseWriter.fresh (createRequest ⟨NilObjectID, "t", "c", "a"⟩)
      sampleStore).1.body.map SBSResponse.toJson =
      [⟨200, "Success", JsonValue.object [("id", "000000000000000000000001")]⟩] :=
  (createArticle_success_data (createRequest ⟨NilObjectID, "t", "c", "a"⟩) sampleStore
    (InsertOne sampleStore ⟨NilObjectID, "t", "c", "a"⟩).2 ⟨NilObjectID, "t", "c", "a"⟩
    (sampleID 1) rfl (by decide) rfl).2.2

/-- C5 (amended): `createArticle` answers 200 only after an insert that
appended exactly one document, whose identifier it returns; a decode failure
and a missing field are answered 400 and do not touch the store; an insert
that returns an error is answered 500, and then the documents are the ones
before when the store refused the write, and the ones before plus the new
document when the server applied the write and reported a write-concern
error. -/
theorem createArticle_inserts_one_or_none (r : Request) (s : Store) :
    (∃ err, r.body = .error err ∧
      (createArticle ResponseWriter.fresh r s).1.codes = [400] ∧
      (createArticle ResponseWriter.fresh r s).2 = s) ∨
    (∃ a, r.body = .ok a ∧ (a.Title = "" ∨ a.Content = "" ∨ a.Author = "") ∧
      (createArticle ResponseWriter.fresh r s).1.codes = [400] ∧
      (createArticle ResponseWriter.fresh r s).2 = s) ∨
    (∃ a err, r.body = .ok a ∧ (InsertOne s a).1 = .error err ∧
      (createArticle ResponseWriter.fresh r s).1.codes = [500] ∧
      (createArticle ResponseWriter.fresh r s).1.body = [⟨500, err, Payload.nil⟩] ∧
      ((createArticle ResponseWriter.fresh r s).2.docs = s.docs ∨
        (s.writeConcernErr = some err ∧ ∃ id,
          (createArticle ResponseWriter.fresh r s).2.docs =
            s.docs ++ [⟨id, a.Title, a.Content, a.Author, none⟩] ∧
          (createArticle ResponseWriter.fresh r s).2.docs.length = s.docs.length + 1))) ∨
    (∃ a id, r.body = .ok a ∧ (InsertOne s a).1 = .ok id ∧
      (createArticle ResponseWriter.fresh r s).1.codes = [200] ∧
      (createArticle ResponseWriter.fresh r s).1.body =
        [⟨200, "Success", Payload.articlePtr ⟨id, "", "", ""⟩⟩] ∧
      (createArticle ResponseWriter.fresh r s).2.docs =
        s.docs ++ [⟨id, a.Title, a.Content, a.Author, none⟩] ∧
      (createArticle ResponseWriter.fresh r s).2.docs.length = s.docs.length + 1) := by
  rcases createArticle_cases r s with ⟨err, hb, h⟩ | ⟨a, hb, hm, h⟩ | ⟨a, err, hb, _, hi, h⟩ |
    ⟨a, id, hb, _, hi, h⟩
  · left; exact ⟨err, hb, by rw [h]; rfl, by rw [h]⟩
  · right; left; exact ⟨a, hb, hm, by rw [h]; rfl, by rw [h]⟩
  · right; right; left
    refine ⟨a, err, hb, hi, by rw [h]; rfl, by rw [h]; rfl, ?_⟩
    rw [h]
    rcases InsertOne_cases s a with ⟨err', herr, hd⟩ | ⟨id, hok, _⟩
    · rw [hi] at herr
      cases herr
      rcases hd with hd | ⟨hw, id, hd, _⟩
      · exact Or.inl hd
      · refine Or.inr ⟨hw, id, hd, ?_⟩
        simp only [hd, List.length_append, List.length_singleton]
    · rw [hi] at hok; cases hok
  · right; right; right
    rcases InsertOne_cases s a with ⟨err, herr, _⟩ | ⟨id', hok, hd, _⟩
    · rw [hi] at herr; cases herr
    · rw [hi] at hok
      cases hok
      refine ⟨a, id, hb, hi, by rw [h]; rfl, by rw [h]; rfl, by rw [h]; exact hd, ?_⟩
      rw [h]
      simp only [hd, List.length_append, List.length_singleton]

/-- C5 as stated fails: on a store whose server applies the write and then
reports that the write concern was not met, a complete article is answered
500 with the text of that error and no data, and the store, empty before,
holds the new document. -/
theorem createArticle_failed_insert_stored :
    unacknowledgedStore.docs = [] ∧
    (createArticle ResponseWriter.fresh (createRequest ⟨NilObjectID, "t", "c", "a"⟩)
      unacknowledgedStore).1.body =
      [⟨500,
        "write exception: write concern error: (WriteConcernFailed) waiting for replication timed out",
        Payload.nil⟩] ∧
    (createArticle ResponseWriter.fresh (createRequest ⟨NilObjectID, "t", "c", "a"⟩)
      unacknowledgedStore).2.docs = [⟨sampleID 1, "t", "c", "a", none⟩] := by
  refine ⟨rfl, by decide, by decide⟩

/-- C6: a path identifier that is not a string of exactly 24 hexadecimal
characters fails the identifier parse, and `getArticle` answers 400 with the
text of that error and no data, whatever the store holds. -/
theorem getArticle_malformed_id (r : Request) (s : Store) (hbad : ¬ IsHex24 r.article_id) :
    ∃ e, ObjectIDFromHex r.article_id = .error e ∧
      (getArticle ResponseWriter.fresh r s).codes = [400] ∧
      (getArticle ResponseWriter.fresh r s).body = [⟨400, e.Error, Payload.nil⟩] ∧
      (getArticle ResponseWriter.fresh r s).body.map SBSResponse.toJson =
        [⟨400, e.Error, JsonValue.null⟩] ∧
      ∀ s' : Store, getArticle ResponseWriter.fresh r s' = getArticle ResponseWriter.fresh r s := by
  cases hp : ObjectIDFromHex r.article_id with
  | ok id => exact absurd ((ObjectIDFromHex_ok_iff _).mp ⟨id, hp⟩) hbad
  | error e =>
    refine ⟨e, rfl, ?_, ?_, ?_, ?_⟩
    · simp only [getArticle, hp]; rfl
    · simp only [getArticle, hp]; rfl
    · simp only [getArticle, hp]; rfl
    · intro s'; simp only [getArticle, hp]

/-- Witness of C6: the three-character identifier `abc`. -/
theorem getArticle_malformed_id_witness :
    ∃ e, ObjectIDFromHex "abc" = .error e ∧
      (getArticle ResponseWriter.fresh (getRequest "abc") sampleStore).codes = [400] :=
  have h := getArticle_malformed_id (getRequest "abc") sampleStore
    (fun h => absurd h.1 (by decide))
  h.elim fun e he => ⟨e, he.1, he.2.1⟩

/-- C7: for an identifier that parses, any error of the lookup is answered 404
with the text of that error and no data; an identifier no stored document has
is such a case; and no path of `getArticle` writes 500. -/
theorem getArticle_lookup_error (r : Request) (s : Store) :
    (∀ id err, ObjectIDFromHex r.article_id = .ok id → FindOne s id = .error err →
      (getArticle ResponseWriter.fresh r s).codes = [404] ∧
      (getArticle ResponseWriter.fresh r s).body = [⟨404, err, Payload.nil⟩] ∧
      (getArticle ResponseWriter.fresh r s).body.map SBSResponse.toJson =
        [⟨404, err, JsonValue.null⟩]) ∧
    (∀ id, ObjectIDFromHex r.article_id = .ok id → (∀ d ∈ s.docs, d.id ≠ id) →
      (getArticle ResponseWriter.fresh r s).codes = [404]) ∧
    (∀ c ∈ (getArticle ResponseWriter.fresh r s).codes, c ≠ 500) := by
  refine ⟨?_, ?_, ?_⟩
  · intro id err hp hf
    simp only [getArticle, hp, hf]
    exact ⟨rfl, rfl, rfl⟩
  · intro id hp hno
    have hfind : s.docs.find? (fun d => decide (d.id = id)) = none := by
      rw [List.find?_eq_none]
      intro d hd
      simpa using hno d hd
    cases hfault : s.fault with
    | some err =>
      have hf : FindOne s id = .error err := by simp only [FindOne, hfault]
      simp only [getArticle, hp, hf]; rfl
    | none =>
      have hf : FindOne s id = .error ErrNoDocuments := by simp only [FindOne, hfault, hfind]
      simp only [getArticle, hp, hf]; rfl
  · intro c hc
    rcases getArticle_cases r s with ⟨e, _, h⟩ | ⟨id, err, _, _, h⟩ | ⟨id, a, _, _, h⟩ <;>
      · rw [h] at hc
        simp [writeResponse, ResponseWriter.fresh, StatusBadRequest, StatusNotFound, StatusOK] at hc
        omega

/-- Witness of C7: a well-formed identifier on the sample store, which holds no
document: the lookup gives `mongo.ErrNoDocuments` and the answer is 404. -/
theorem getArticle_lookup_error_witness :
    (getArticle ResponseWriter.fresh (getRequest "0000000000000000000000ab") sampleStore).body =
      [⟨404, "mongo: no documents in result", Payload.nil⟩] :=
  ((getArticle_lookup_error (getRequest "0000000000000000000000ab") sampleStore).1
    (sampleID 171) ErrNoDocuments (ObjectIDFromHex_Hex (sampleID 171)) rfl).2.1

/-- C10: each of the three handlers, on every request and store, writes
exactly one response; the status in the body is the code passed to
`WriteHeader`; the code is 200, 400, 404 or 500; a response that is not 200
carries no data; a 200 response carries the message "Success". -/
theorem handlers_envelope (r : Request) (s : Store) :
    EnvelopeOK (createArticle ResponseWriter.fresh r s).1 ∧
    EnvelopeOK (getArticle ResponseWriter.fresh r s) ∧
    EnvelopeOK (getArticles ResponseWriter.fresh r s) := by
  have key : ∀ (code : Nat) (msg : String) (d : Payload),
      (code = 200 ∨ code = 400 ∨ code = 404 ∨ code = 500) →
      (code ≠ 200 → d = Payload.nil) → (code = 200 → msg = "Success") →
      EnvelopeOK (writeResponse ResponseWriter.fresh code msg d) := by
    intro code msg d h1 h2 h3
    refine ⟨⟨code, msg, d⟩, rfl, rfl, h1, ?_, h3⟩
    intro hne
    have hd := h2 hne
    subst hd
    exact ⟨rfl, rfl⟩
  refine ⟨?_, ?_, ?_⟩
  · rcases createArticle_cases r s with ⟨_, _, h⟩ | ⟨_, _, _, h⟩ | ⟨_, _, _, _, _, h⟩ |
      ⟨_, _, _, _, _, h⟩ <;>
      · rw [h]
        apply key <;> simp [StatusBadRequest, StatusInternalServerError, StatusOK]
  · rcases getArticle_cases r s with ⟨_, _, h⟩ | ⟨_, _, _, _, h⟩ | ⟨_, _, _, _, h⟩ <;>
      · rw [h]
        apply key <;> simp [StatusBadRequest, StatusNotFound, StatusOK]
  · rcases getArticles_cases r s with ⟨_, _, h⟩ | ⟨_, _, _, _, h⟩ | ⟨_, _, _, _, h⟩ <;>
      · rw [h]
        apply key <;> simp [StatusInternalServerError, StatusOK]

/-- C3: when `createArticle` answers 200, the request carried an article, the
response carries an identifier, and `getArticle` for the hex form of that
identifier on the store left behind answers 200 "Success" with a list of
exactly one `Article`: that identifier with the submitted title, content and
author. -/
theorem create_then_get (r : Request) (s : Store)
    (h200 : (createArticle ResponseWriter.fresh r s).1.codes = [200]) :
    ∃ a id, r.body = .ok a ∧
      (createArticle ResponseWriter.fresh r s).1.body =
        [⟨200, "Success", Payload.articlePtr ⟨id, "", "", ""⟩⟩] ∧
      ∀ g : Request, g.article_id = id.Hex →
        (getArticle ResponseWriter.fresh g (createArticle ResponseWriter.fresh r s).2).codes
          = [200] ∧
        (getArticle ResponseWriter.fresh g (createArticle ResponseWriter.fresh r s).2).body
          = [⟨200, "Success", Payload.articles [⟨id, a.Title, a.Content, a.Author⟩]⟩] ∧
        (getArticle ResponseWriter.fresh g
            (createArticle ResponseWriter.fresh r s).2).body.map SBSResponse.toJson
          = [⟨200, "Success", JsonValue.array
              [[("id", id.Hex), ("title", a.Title), ("content", a.Content),
                ("author", a.Author)]]⟩] := by
  rcases createArticle_cases r s with ⟨_, _, h⟩ | ⟨_, _, _, h⟩ | ⟨_, _, _, _, _, h⟩ |
    ⟨a, id, hb, hv, hi, h⟩
  · rw [h] at h200; simp [writeResponse, ResponseWriter.fresh, StatusBadRequest] at h200
  · rw [h] at h200; simp [writeResponse, ResponseWriter.fresh, StatusBadRequest] at h200
  · rw [h] at h200
    simp [writeResponse, ResponseWriter.fresh, StatusInternalServerError] at h200
  · refine ⟨a, id, hb, by rw [h]; rfl, ?_⟩
    intro g hg
    rcases InsertOne_cases s a with ⟨err, herr, _⟩ | ⟨id', hok, hd, hfresh, hfault⟩
    · rw [hi] at herr; cases herr
    · rw [hi] at hok
      cases hok
      have hfind : (InsertOne s a).2.docs.find? (fun d => decide (d.id = id)) =
          some ⟨id, a.Title, a.Content, a.Author, none⟩ := by
        rw [hd, List.find?_append]
        have hnone : s.docs.find? (fun d => decide (d.id = id)) = none := by
          rw [List.find?_eq_none]
          intro d hd'
          simpa using hfresh d hd'
        rw [hnone]
        simp
      have hf : FindOne (InsertOne s a).2 id = .ok ⟨id, a.Title, a.Content, a.Author⟩ := by
        simp only [FindOne, hfault, hfind, Document.Decode]
      have hp : ObjectIDFromHex g.article_id = .ok id := by rw [hg]; exact ObjectIDFromHex_Hex id
      rw [h]
      simp only [getArticle, hp, hf]
      obtain ⟨h1, h2, h3⟩ := hv
      simp [writeResponse, ResponseWriter.fresh, StatusOK, SBSResponse.toJson, Payload.toJson,
        Article.toJson, h1, h2, h3]

/-- Witness of C3: an article created on the sample store and read back. -/
theorem create_then_get_witness :
    ∃ a id, (createRequest ⟨NilObjectID, "t", "c", "a"⟩).body = .ok a ∧
      (createArticle ResponseWriter.fresh (createRequest ⟨NilObjectID, "t", "c", "a"⟩)
        sampleStore).1.body = [⟨200, "Success", Payload.articlePtr ⟨id, "", "", ""⟩⟩] ∧
      (getArticle ResponseWriter.fresh (getRequest id.Hex)
        (createArticle ResponseWriter.fresh (createRequest ⟨NilObjectID, "t", "c", "a"⟩)
          sampleStore).2).body
        = [⟨200, "Success", Payload.articles [⟨id, a.Title, a.Content, a.Author⟩]⟩] :=
  have h := create_then_get (createRequest ⟨NilObjectID, "t", "c", "a"⟩) sampleStore
    (by decide)
  h.elim fun a ha => ha.elim fun id hid =>
    ⟨a, id, hid.1, hid.2.1, (hid.2.2 (getRequest id.Hex) rfl).2.1⟩

/-- C8: on a store that holds no document and answers the query,
`getArticles` writes 200 "Success" with the `[]*Article` slice it never
appended to; that nil slice is rendered `null`, the very rendering of the data
of a failure body, and not as an array. -/
theorem getArticles_empty_store_null (r : Request) (s : Store)
    (hempty : s.docs = []) (hquery : ∃ cursor, Find s = .ok cursor) :
    (getArticles ResponseWriter.fresh r s).codes = [200] ∧
    (getArticles ResponseWriter.fresh r s).body =
      [⟨200, "Success", Payload.articlePtrs none⟩] ∧
    (getArticles ResponseWriter.fresh r s).body.map SBSResponse.toJson =
      [⟨200, "Success", JsonValue.null⟩] ∧
    (getArticles ResponseWriter.fresh r s).body.map (fun res => res.toJson.data) =
      (writeResponse ResponseWriter.fresh StatusInternalServerError "" Payload.nil).body.map
        (fun res => res.toJson.data) ∧
    ¬ ∃ l, (getArticles ResponseWriter.fresh r s).body.map (fun res => res.toJson.data) =
      [JsonValue.array l] := by
  have hF : Find s = .ok ⟨[], none⟩ := by
    obtain ⟨cursor, hc⟩ := hquery
    unfold Find at hc ⊢
    cases hf : s.fault with
    | some err => rw [hf] at hc; cases hc
    | none =>
      cases hg : s.getMoreErr with
      | none => simp only [hempty]
      | some ke => simp only [hempty, List.length_nil, Nat.not_lt_zero, if_false]
  simp only [getArticles, hF, decodeLoop]
  simp [writeResponse, ResponseWriter.fresh, StatusOK, SBSResponse.toJson, Payload.toJson]

/-- Witness of C8: the listing of the sample store, which is empty. -/
theorem getArticles_empty_store_null_witness :
    (getArticles ResponseWriter.fresh (getRequest "") sampleStore).body.map SBSResponse.toJson =
      [⟨200, "Success", JsonValue.null⟩] :=
  (getArticles_empty_store_null (getRequest "") sampleStore rfl ⟨⟨[], none⟩, rfl⟩).2.2.1

/-- Effect of one `createArticle` call: either no identifier is issued and the
documents stored before are still stored; or it is a success whose identifier
was not stored before and whose document is appended. -/
theorem createArticle_effect (r : Request) (s : Store) :
    ((createArticle ResponseWriter.fresh r s).1.codes ≠ [200] ∧
      issuedID (createArticle ResponseWriter.fresh r s).1 = none ∧
      ∀ d ∈ s.docs, d ∈ (createArticle ResponseWriter.fresh r s).2.docs) ∨
    (∃ a id, r.body = .ok a ∧ (InsertOne s a).1 = .ok id ∧
      (createArticle ResponseWriter.fresh r s).1 =
        writeResponse ResponseWriter.fresh StatusOK "Success"
          (Payload.articlePtr ⟨id, "", "", ""⟩) ∧
      issuedID (createArticle ResponseWriter.fresh r s).1 = some id ∧
      (createArticle ResponseWriter.fresh r s).2.docs =
        s.docs ++ [⟨id, a.Title, a.Content, a.Author, none⟩] ∧
      (∀ d ∈ s.docs, d.id ≠ id) ∧
      (createArticle ResponseWriter.fresh r s).2.fault = none) := by
  rcases createArticle_cases r s with ⟨_, _, h⟩ | ⟨_, _, _, h⟩ | ⟨a, err, _, _, hi, h⟩ |
    ⟨a, id, hb, _, hi, h⟩
  · left
    rw [h]
    exact ⟨by simp [writeResponse, ResponseWriter.fresh, StatusBadRequest], rfl,
      fun d hd => hd⟩
  · left
    rw [h]
    exact ⟨by simp [writeResponse, ResponseWriter.fresh, StatusBadRequest], rfl,
      fun d hd => hd⟩
  · left
    rw [h]
    refine ⟨by simp [writeResponse, ResponseWriter.fresh, StatusInternalServerError], rfl, ?_⟩
    intro d hdm
    rcases InsertOne_cases s a with ⟨_, _, hd | ⟨_, id, hd, _⟩⟩ | ⟨id, hok, _⟩
    · show d ∈ (InsertOne s a).2.docs
      rw [hd]; exact hdm
    · show d ∈ (InsertOne s a).2.docs
      rw [hd]; exact List.mem_append_left _ hdm
    · rw [hi] at hok; cases hok
  · right
    rcases InsertOne_cases s a with ⟨err, herr, _⟩ | ⟨id', hok, hd, hfresh, hfault⟩
    · rw [hi] at herr; cases herr
    · rw [hi] at hok
      cases hok
      exact ⟨a, id, hb, hi, by rw [h], by rw [h]; rfl, by rw [h]; exact hd, hfresh,
        by rw [h]; exact hfault⟩

/-- Serving creates never removes a document, and every identifier issued on
the way is the `_id` of a document of the final store. -/
theorem serveCreates_docs (reqs : List Request) : ∀ s : Store,
    (∀ d ∈ s.docs, d ∈ (serveCreates s reqs).2.docs) ∧
    (∀ i ∈ (serveCreates s reqs).1.filterMap issuedID,
      ∃ d ∈ (serveCreates s reqs).2.docs, d.id = i) := by
  induction reqs with
  | nil => intro s; simp [serveCreates]
  | cons r rs ih =>
    intro s
    obtain ⟨ih1, ih2⟩ := ih (createArticle ResponseWriter.fresh r s).2
    simp only [serveCreates]
    rcases createArticle_effect r s with ⟨_, hnone, hd⟩ | ⟨a, id, _, _, _, hsome, hd, _, _⟩
    · refine ⟨fun d hdm => ih1 d (hd d hdm), ?_⟩
      intro i hi
      rw [List.filterMap_cons, hnone] at hi
      exact ih2 i hi
    · refine ⟨fun d hdm => ih1 d (by rw [hd]; exact List.mem_append_left _ hdm), ?_⟩
      intro i hi
      rw [List.filterMap_cons, hsome] at hi
      simp only [List.mem_cons] at hi
      rcases hi with rfl | hi
      · exact ⟨⟨i, a.Title, a.Content, a.Author, none⟩, ih1 _ (by rw [hd]; simp), rfl⟩
      · exact ih2 i hi

/-- The hex form of an identifier has 24 characters. -/
theorem Hex_length (id : ObjectID) : id.Hex.length = 24 := by
  simp only [ObjectID.Hex, String.length, hexEncode_length, id.size]

/-- C2 (amended): a create request with non-empty title, content and author,
served after any sequence of earlier creates, is answered 200 exactly when the
insert succeeds, and then `data.id` is the 24-character hex form of an
identifier that no stored document had and that no earlier create issued; when
the insert fails it is answered 500 with the text of the error and no data. -/
theorem createArticle_valid_payload (s0 : Store) (earlier : List Request) (r : Request)
    (a : Article) (hbody : r.body = .ok a)
    (hvalid : a.Title ≠ "" ∧ a.Content ≠ "" ∧ a.Author ≠ "") :
    (∃ err, (InsertOne (serveCreates s0 earlier).2 a).1 = .error err ∧
      (createArticle ResponseWriter.fresh r (serveCreates s0 earlier).2).1.codes = [500] ∧
      (createArticle ResponseWriter.fresh r (serveCreates s0 earlier).2).1.body =
        [⟨500, err, Payload.nil⟩]) ∨
    (∃ id, (InsertOne (serveCreates s0 earlier).2 a).1 = .ok id ∧
      (createArticle ResponseWriter.fresh r (serveCreates s0 earlier).2).1.codes = [200] ∧
      (createArticle ResponseWriter.fresh r
          (serveCreates s0 earlier).2).1.body.map SBSResponse.toJson =
        [⟨200, "Success", JsonValue.object [("id", id.Hex)]⟩] ∧
      id.Hex.length = 24 ∧ id.Hex ≠ "" ∧
      (∀ d ∈ (serveCreates s0 earlier).2.docs, d.id ≠ id) ∧
      id ∉ (serveCreates s0 earlier).1.filterMap issuedID) := by
  rcases createArticle_cases r (serveCreates s0 earlier).2 with ⟨_, hb, _⟩ | ⟨a', hb, hm, _⟩ |
    ⟨a', err, hb, _, hi, h⟩ | ⟨a', id, hb, _, hi, h⟩
  · rw [hbody] at hb; cases hb
  · rw [hbody] at hb
    cases hb
    rcases hm with hm | hm | hm
    · exact absurd hm hvalid.1
    · exact absurd hm hvalid.2.1
    · exact absurd hm hvalid.2.2
  · rw [hbody] at hb
    cases hb
    left
    exact ⟨err, hi, by rw [h]; rfl, by rw [h]; rfl⟩
  · rw [hbody] at hb
    cases hb
    right
    have hlen := Hex_length id
    have hne : id.Hex ≠ "" := by
      intro he
      rw [he] at hlen
      exact absurd hlen (by decide)
    have hfresh : ∀ d ∈ (serveCreates s0 earlier).2.docs, d.id ≠ id := by
      rcases InsertOne_cases (serveCreates s0 earlier).2 a with ⟨err, herr, _⟩ |
        ⟨id', hok, _, hfresh, _⟩
      · rw [hi] at herr; cases herr
      · rw [hi] at hok; cases hok; exact hfresh
    refine ⟨id, hi, by rw [h]; rfl, ?_, hlen, hne, hfresh, ?_⟩
    · rw [h]
      simp [writeResponse, ResponseWriter.fresh, StatusOK, SBSResponse.toJson, Payload.toJson,
        Article.toJson]
    · intro hmem
      obtain ⟨d, hd, hid⟩ := (serveCreates_docs earlier s0).2 id hmem
      exact hfresh d hd hid

/-- Witness of C2 (amended): a second complete article created on the sample
store after a first one. -/
theorem createArticle_valid_payload_witness :
    (createArticle ResponseWriter.fresh (createRequest ⟨NilObjectID, "t2", "c2", "a2"⟩)
      (serveCreates sampleStore [createRequest ⟨NilObjectID, "t", "c", "a"⟩]).2).1.codes = [200] ∧
    (serveCreates sampleStore [createRequest ⟨NilObjectID, "t", "c", "a"⟩]).1.filterMap issuedID
      = [sampleID 1] ∧
    sampleID 2 ∉
      (serveCreates sampleStore [createRequest ⟨NilObjectID, "t", "c", "a"⟩]).1.filterMap issuedID :=
  (createArticle_valid_payload sampleStore [createRequest ⟨NilObjectID, "t", "c", "a"⟩]
    (createRequest ⟨NilObjectID, "t2", "c2", "a2"⟩) ⟨NilObjectID, "t2", "c2", "a2"⟩ rfl
    (by decide)).elim
    (fun h => h.elim fun err he => absurd he.2.1 (by decide))
    (fun h => h.elim fun id hid =>
      have hid2 : id = sampleID 2 := by
        have h1 := hid.1
        have h2 : (InsertOne (serveCreates sampleStore
          [createRequest ⟨NilObjectID, "t", "c", "a"⟩]).2 ⟨NilObjectID, "t2", "c2", "a2"⟩).1
            = .ok (sampleID 2) := rfl
        rw [h2] at h1
        cases h1
        rfl
      ⟨hid.2.1, by decide, hid2 ▸ hid.2.2.2.2.2.2⟩)

/-- C2 as stated fails: a complete article whose client-supplied `id` is the
one an earlier create issued is answered 500, and so is a complete article
sent while the backend answers with an error. -/
theorem createArticle_valid_payload_rejected :
    (createArticle ResponseWriter.fresh (createRequest ⟨NilObjectID, "t", "c", "a"⟩)
      sampleStore).1.body = [⟨200, "Success", Payload.articlePtr ⟨sampleID 1, "", "", ""⟩⟩] ∧
    (createArticle ResponseWriter.fresh (createRequest ⟨sampleID 1, "t2", "c2", "a2"⟩)
      (createArticle ResponseWriter.fresh (createRequest ⟨NilObjectID, "t", "c", "a"⟩)
        sampleStore).2).1.codes = [500] ∧
    (createArticle ResponseWriter.fresh (createRequest ⟨NilObjectID, "t", "c", "a"⟩)
      faultyStore).1.codes = [500] := by
  refine ⟨by decide, by decide, by decide⟩

/-- C9: the listing after N = 0 creates. With no create served on the sample
store, which holds no document and answers the query, `getArticles` writes 200
"Success" and the data is rendered `null`: not the array of zero objects that
a collection of exactly 0 articles is. -/
theorem getArticles_after_zero_creates :
    (serveCreates sampleStore []).1 = [] ∧ (serveCreates sampleStore []).2.docs = [] ∧
    (getArticles ResponseWriter.fresh (getRequest "") (serveCreates sampleStore []).2).body =
      [⟨200, "Success", Payload.articlePtrs none⟩] ∧
    (getArticles ResponseWriter.fresh (getRequest "")
      (serveCreates sampleStore []).2).body.map SBSResponse.toJson =
        [⟨200, "Success", JsonValue.null⟩] ∧
    (getArticles ResponseWriter.fresh (getRequest "")
      (serveCreates sampleStore []).2).body.map SBSResponse.toJson ≠
        [⟨200, "Success", JsonValue.array []⟩] := by
  refine ⟨rfl, rfl, by decide, by decide, by decide⟩

end SimpleBlogSystem
